import Mathlib

/-!
Shallow embedding of the route optimizer (src/route-optmizer.py).

Python floats are modelled by real numbers; Python sets of order-id
strings by finite sets of strings; the `while` loop of `optimize_route`
is embedded with explicit fuel, since the source loop is not guaranteed
to terminate on all inputs.  `None`-returning paths (the `(None, None,
inf)` result of the candidate search, or the `StopIteration` escape of
`next(...)`) are modelled with `Option`.
-/

open Real

/-- Python `math.radians`: degrees to radians. -/
noncomputable def radians (x : ℝ) : ℝ := x * (Real.pi / 180)

/-- `Location` dataclass: name, latitude, longitude.  Python `==` on the
dataclass compares all three fields, which structure equality mirrors. -/
structure Location where
  name : String
  lat : ℝ
  lon : ℝ

/-- `Restaurant` dataclass: a location plus a preparation time in minutes. -/
structure Restaurant where
  location : Location
  prep_time : ℝ

/-- `Order` dataclass: id, restaurant, customer location. -/
structure Order where
  id : String
  restaurant : Restaurant
  customer : Location

/-- Timeline events appended by `optimize_route` (the Python dicts,
keyed by their `action` field; `location` holds the location's name). -/
inductive Event where
  | waiting (location : String) (order_id : String) (start_time : ℝ) (end_time : ℝ)
  | pickup (location : String) (order_id : String) (time : ℝ)
  | delivery (location : String) (order_id : String) (time : ℝ)

/-- `DeliveryState`: mutable state threaded through the optimization. -/
structure DeliveryState where
  location : Location
  time : ℝ
  picked_up_orders : Finset String
  delivered_orders : Finset String
  restaurant_arrival_times : List (String × ℝ)

/-- `DeliveryState.__init__`: both id sets start empty (the
`restaurant_arrival_times` dict is declared in the source but never used). -/
def DeliveryState.init (current_location : Location) (current_time : ℝ) : DeliveryState :=
  { location := current_location
    time := current_time
    picked_up_orders := ∅
    delivered_orders := ∅
    restaurant_arrival_times := [] }

/-- The optimizer object: only the driver start location is per-instance
state; `EARTH_RADIUS` and `AVG_SPEED` are class constants. -/
structure RouteOptimizer where
  driver_location : Location

namespace RouteOptimizer

/-- Class constant: Earth radius in kilometers. -/
noncomputable def EARTH_RADIUS : ℝ := 6371

/-- Class constant: average speed in km/h. -/
noncomputable def AVG_SPEED : ℝ := 20

/-- `haversine_distance`: great-circle distance between two locations. -/
noncomputable def haversine_distance (loc1 loc2 : Location) : ℝ :=
  let lat1 := radians loc1.lat
  let lon1 := radians loc1.lon
  let lat2 := radians loc2.lat
  let lon2 := radians loc2.lon
  let dlat := lat2 - lat1
  let dlon := lon2 - lon1
  let a := Real.sin (dlat / 2) ^ 2 +
    Real.cos lat1 * Real.cos lat2 * Real.sin (dlon / 2) ^ 2
  let c := 2 * Real.arcsin (Real.sqrt a)
  EARTH_RADIUS * c

/-- `travel_time`: minutes to travel between two locations. -/
noncomputable def travel_time (loc1 loc2 : Location) : ℝ :=
  (haversine_distance loc1 loc2 / AVG_SPEED) * 60

/-- Comparison against the running best triple; the Python best starts at
`float('inf')` (here: the accumulator is still `none`), against which any
arrival time compares smaller. -/
def isBetter (arrival_time : ℝ) (best : Option (Location × String × ℝ)) : Prop :=
  match best with
  | none => True
  | some b => arrival_time < b.2.2

noncomputable instance (t : ℝ) (best : Option (Location × String × ℝ)) :
    Decidable (isBetter t best) := by
  cases best with
  | none => exact isTrue trivial
  | some b => exact inferInstanceAs (Decidable (t < b.2.2))

noncomputable instance : DecidableEq Location := fun _ _ => Classical.dec _

/-- One iteration of the `for order in orders` loop of
`find_nearest_valid_location` (lines 84-104): first the restaurant-pickup
check, then the customer-delivery check, each updating the running best
triple when strictly closer. -/

noncomputable def considerOrder (state : DeliveryState) (waiting_required : Bool)
    (best : Option (Location × String × ℝ)) (order : Order) :
    Option (Location × String × ℝ) :=
  let best1 :=
    if order.id ∉ state.picked_up_orders ∧
        (¬ waiting_required ∨
          state.time + travel_time state.location order.restaurant.location <
            order.restaurant.prep_time) then
      let arrival_time := state.time + travel_time state.location order.restaurant.location
      if isBetter arrival_time best then
        some (order.restaurant.location, order.id, arrival_time)
      else best
    else best
  if order.id ∈ state.picked_up_orders ∧ order.id ∉ state.delivered_orders then
    let arrival_time := state.time + travel_time state.location order.customer
    if isBetter arrival_time best1 then
      some (order.customer, order.id, arrival_time)
    else best1
  else best1

/-- The scan of `find_nearest_valid_location`, with the joint
`(best_location, best_order_id, best_arrival_time)` triple packed into a
single `Option` (all three are `None`/`inf` exactly together). -/
noncomputable def findBest (state : DeliveryState) (orders : List Order)
    (waiting_required : Bool) : Option (Location × String × ℝ) :=
  orders.foldl (considerOrder state waiting_required) none

/-- `find_nearest_valid_location`: returns the best triple, literally
`(None, None, float('inf'))` when no candidate qualifies (`⊤ : WithTop ℝ`
models `float('inf')`). -/
noncomputable def find_nearest_valid_location (state : DeliveryState)
    (orders : List Order) (waiting_required : Bool) :
    Option Location × Option String × WithTop ℝ :=
  match findBest state orders waiting_required with
  | none => (none, none, ⊤)
  | some (l, i, t) => (some l, some i, (t : WithTop ℝ))

/-- Lines 121-125 of `optimize_route`: first pass without waiting, and a
second pass with `waiting_required=True` only when the first found nothing. -/
noncomputable def select_candidate (state : DeliveryState) (orders : List Order) :
    Option (Location × String × ℝ) :=
  match findBest state orders false with
  | none => findBest state orders true
  | some c => some c

/-- The body of one `while` iteration of `optimize_route` (lines 120-165).
Returns the updated `(state, route, timeline)`; when no candidate is found
the body changes nothing (the Python `if next_loc:` guard); `none` models
the `StopIteration` crash of `next(o for o in orders if o.id == order_id)`,
which cannot occur since the candidate's id comes from `orders`. -/

noncomputable def loop_body (orders : List Order) (state : DeliveryState)
    (route : List Location) (timeline : List Event) :
    Option (DeliveryState × List Location × List Event) :=
  match select_candidate state orders with
  | none => some (state, route, timeline)
  | some (next_loc, order_id, arrival_time) =>
    match orders.find? (fun o => o.id == order_id) with
    | none => none
    | some matching_order =>
      let s1 : DeliveryState := { state with time := arrival_time }
      if next_loc = matching_order.restaurant.location then
        let prep_end_time := max s1.time matching_order.restaurant.prep_time
        let s2 : DeliveryState :=
          if prep_end_time > s1.time then { s1 with time := prep_end_time } else s1
        let tl2 :=
          if prep_end_time > s1.time then
            timeline ++ [Event.waiting next_loc.name order_id s1.time prep_end_time]
          else timeline
        let s3 : DeliveryState :=
          { s2 with picked_up_orders := insert order_id s2.picked_up_orders }
        let tl3 := tl2 ++ [Event.pickup next_loc.name order_id s3.time]
        some ({ s3 with location := next_loc }, route ++ [next_loc], tl3)
      else
        let s2 : DeliveryState :=
          { s1 with delivered_orders := insert order_id s1.delivered_orders }
        let tl2 := timeline ++ [Event.delivery next_loc.name order_id s2.time]
        some ({ s2 with location := next_loc }, route ++ [next_loc], tl2)

/-- Fuel-indexed unfolding of the `while len(state.delivered_orders) <
len(orders)` loop: `some` when the loop exits within `fuel` iterations,
`none` when it is still running (or crashed). -/
noncomputable def optimize_route_aux (orders : List Order) :
    ℕ → DeliveryState → List Location → List Event →
    Option (List Location × ℝ × List Event)
  | 0, state, route, timeline =>
    if state.delivered_orders.card < orders.length then none
    else some (route, state.time, timeline)
  | fuel + 1, state, route, timeline =>
    if state.delivered_orders.card < orders.length then
      match loop_body orders state route timeline with
      | none => none
      | some (s, r, tl) => optimize_route_aux orders fuel s r tl
    else some (route, state.time, timeline)

/-- `optimize_route`: run the loop from the initial state.  A budget of
`2 * orders.length` iterations is exact whenever the loop terminates (one
pickup plus one delivery per order); `none` reports that the source loop
is still running after that many iterations. -/
noncomputable def optimize_route (opt : RouteOptimizer) (orders : List Order) :
    Option (List Location × ℝ × List Event) :=
  optimize_route_aux orders (2 * orders.length)
    (DeliveryState.init opt.driver_location 0) [] []

/-- Arrival time at an order's restaurant from the current state
(`state.time + travel_time(state.location, order.restaurant.location)`). -/
noncomputable def pickupArrival (s : DeliveryState) (o : Order) : ℝ :=
  s.time + travel_time s.location o.restaurant.location

/-- Arrival time at an order's customer from the current state. -/
noncomputable def deliveryArrival (s : DeliveryState) (o : Order) : ℝ :=
  s.time + travel_time s.location o.customer

/-- The pickup guard of lines 86-88: not yet picked up, and when
`waiting_required` is true the arrival must precede the prep time. -/
def pickupOk (s : DeliveryState) (wr : Bool) (o : Order) : Prop :=
  o.id ∉ s.picked_up_orders ∧
    (¬ wr ∨ pickupArrival s o < o.restaurant.prep_time)

/-- The delivery guard of lines 97-98: picked up and not yet delivered. -/
def deliveryOk (s : DeliveryState) (o : Order) : Prop :=
  o.id ∈ s.picked_up_orders ∧ o.id ∉ s.delivered_orders

noncomputable instance (s : DeliveryState) (wr : Bool) (o : Order) :
    Decidable (pickupOk s wr o) := by
  unfold pickupOk; infer_instance

instance (s : DeliveryState) (o : Order) : Decidable (deliveryOk s o) := by
  unfold deliveryOk; infer_instance

/-- The unique candidate move an order contributes to the scan: its pickup
when the pickup guard holds (the two guards are mutually exclusive), else
its delivery when the delivery guard holds, else nothing. -/
noncomputable def cand (s : DeliveryState) (wr : Bool) (o : Order) :
    Option (Location × String × ℝ) :=
  if pickupOk s wr o then some (o.restaurant.location, o.id, pickupArrival s o)
  else if deliveryOk s o then some (o.customer, o.id, deliveryArrival s o)
  else none

lemma radius_mul_arcsin_sqrt_nonneg (r x : ℝ) (hr : 0 ≤ r) :
    0 ≤ r * (2 * Real.arcsin (Real.sqrt x)) :=
  mul_nonneg hr (mul_nonneg (by norm_num)
    (Real.arcsin_nonneg.mpr (Real.sqrt_nonneg x)))

lemma haversine_distance_nonneg (loc1 loc2 : Location) :
    0 ≤ haversine_distance loc1 loc2 := by
  simp only [haversine_distance]
  exact radius_mul_arcsin_sqrt_nonneg EARTH_RADIUS _ (by norm_num [EARTH_RADIUS])

lemma travel_time_nonneg (loc1 loc2 : Location) : 0 ≤ travel_time loc1 loc2 := by
  simp only [travel_time]
  exact mul_nonneg (div_nonneg (haversine_distance_nonneg loc1 loc2)
    (by norm_num [AVG_SPEED])) (by norm_num)

lemma haversine_distance_eq_zero (loc1 loc2 : Location)
    (h1 : loc1.lat = loc2.lat) (h2 : loc1.lon = loc2.lon) :
    haversine_distance loc1 loc2 = 0 := by
  simp [haversine_distance, h1, h2, Real.sqrt_zero, Real.arcsin_zero]

lemma travel_time_eq_zero (loc1 loc2 : Location)
    (h1 : loc1.lat = loc2.lat) (h2 : loc1.lon = loc2.lon) :
    travel_time loc1 loc2 = 0 := by
  simp [travel_time, haversine_distance_eq_zero loc1 loc2 h1 h2]

lemma pickupArrival_ge (s : DeliveryState) (o : Order) : s.time ≤ pickupArrival s o := by
  have := travel_time_nonneg s.location o.restaurant.location
  unfold pickupArrival; linarith

lemma deliveryArrival_ge (s : DeliveryState) (o : Order) : s.time ≤ deliveryArrival s o := by
  have := travel_time_nonneg s.location o.customer
  unfold deliveryArrival; linarith

lemma cand_id (s : DeliveryState) (wr : Bool) (o : Order) (lc : Location)
    (oid : String) (t : ℝ) (h : cand s wr o = some (lc, oid, t)) : oid = o.id := by
  unfold cand at h
  split_ifs at h <;> simp_all

lemma cand_cases (s : DeliveryState) (wr : Bool) (o : Order) (lc : Location)
    (oid : String) (t : ℝ) (h : cand s wr o = some (lc, oid, t)) :
    (pickupOk s wr o ∧ lc = o.restaurant.location ∧ oid = o.id ∧ t = pickupArrival s o) ∨
    (¬ pickupOk s wr o ∧ deliveryOk s o ∧ lc = o.customer ∧ oid = o.id ∧
      t = deliveryArrival s o) := by
  unfold cand at h
  split_ifs at h with hp hd
  · left; simp_all
  · right; simp_all

lemma cand_ne_none_of_not_delivered (s : DeliveryState) (o : Order)
    (h : o.id ∉ s.delivered_orders) : cand s false o ≠ none := by
  unfold cand
  by_cases hp : o.id ∈ s.picked_up_orders
  · have hpo : ¬ pickupOk s false o := fun hc => hc.1 hp
    have hdo : deliveryOk s o := ⟨hp, h⟩
    simp [hpo, hdo]
  · have hpo : pickupOk s false o := ⟨hp, Or.inl (by simp)⟩
    simp [hpo]

/-- `considerOrder` in terms of the per-order candidate. -/
lemma considerOrder_eq (s : DeliveryState) (wr : Bool)
    (best : Option (Location × String × ℝ)) (o : Order) :
    considerOrder s wr best o =
      match cand s wr o with
      | none => best
      | some c => if isBetter c.2.2 best then some c else best := by
  by_cases hp : pickupOk s wr o
  · have hd : ¬ deliveryOk s o := fun hd => hp.1 hd.1
    have hp2 := hp
    unfold pickupOk pickupArrival at hp2
    unfold deliveryOk at hd
    simp only [considerOrder, cand, if_pos hp2, if_neg hd, if_pos hp]
    rfl
  · by_cases hd : deliveryOk s o
    · have hp2 := hp
      unfold pickupOk pickupArrival at hp2
      have hd2 := hd
      unfold deliveryOk at hd2
      simp only [considerOrder, cand, if_neg hp2, if_pos hd2, if_neg hp, if_pos hd]
      rfl
    · have hp2 := hp
      unfold pickupOk pickupArrival at hp2
      have hd2 := hd
      unfold deliveryOk at hd2
      simp only [considerOrder, cand, if_neg hp2, if_neg hd2, if_neg hp, if_neg hd]

lemma findBest_nil (s : DeliveryState) (wr : Bool) : findBest s [] wr = none := rfl

lemma findBest_append (s : DeliveryState) (wr : Bool) (l : List Order) (o : Order) :
    findBest s (l ++ [o]) wr = considerOrder s wr (findBest s l wr) o := by
  simp [findBest, List.foldl_append]

lemma isBetter_none (t : ℝ) : isBetter t none := trivial

lemma findBest_eq_none_iff (s : DeliveryState) (orders : List Order) (wr : Bool) :
    findBest s orders wr = none ↔ ∀ o ∈ orders, cand s wr o = none := by
  induction orders using List.reverseRecOn with
  | nil => simp [findBest_nil]
  | append_singleton l o ih =>
    rw [findBest_append, considerOrder_eq]
    cases hc : cand s wr o with
    | none =>
      simp only [hc]
      rw [ih]
      constructor
      · intro hall o2 ho2
        rcases List.mem_append.mp ho2 with h2 | h2
        · exact hall o2 h2
        · simp only [List.mem_singleton] at h2
          subst h2
          exact hc
      · intro hall o2 ho2
        exact hall o2 (List.mem_append.mpr (Or.inl ho2))
    | some c =>
      simp only [hc]
      have hne : (if isBetter c.2.2 (findBest s l wr) then some c else findBest s l wr) ≠
          none := by
        split_ifs with hb
        · simp
        · cases hfb : findBest s l wr with
          | none => exact absurd (isBetter_none c.2.2) (hfb ▸ hb)
          | some b => simp
      constructor
      · intro h0
        exact absurd h0 hne
      · intro hall
        exact absurd (hall o (List.mem_append.mpr (Or.inr (by simp)))) (by simp [hc])

/-- The scan returns an eligible candidate whose arrival time is no greater
than any eligible candidate's, and strictly smaller than every candidate of
an earlier order (first-seen wins ties). -/
lemma findBest_some_spec (s : DeliveryState) (orders : List Order) (wr : Bool)
    (lc : Location) (oid : String) (t : ℝ)
    (h : findBest s orders wr = some (lc, oid, t)) :
    ∃ l1 o l2, orders = l1 ++ o :: l2 ∧ cand s wr o = some (lc, oid, t) ∧
      (∀ o2 ∈ l1, ∀ c2, cand s wr o2 = some c2 → t < c2.2.2) ∧
      (∀ o2 ∈ orders, ∀ c2, cand s wr o2 = some c2 → t ≤ c2.2.2) := by
  induction orders using List.reverseRecOn generalizing lc oid t with
  | nil => simp [findBest_nil] at h
  | append_singleton l o ih =>
    rw [findBest_append, considerOrder_eq] at h
    cases hc : cand s wr o with
    | none =>
      simp only [hc] at h
      obtain ⟨l1, o1, l2, hsplit, hcand, hearlier, hglobal⟩ := ih lc oid t h
      refine ⟨l1, o1, l2 ++ [o], by simp [hsplit], hcand, hearlier, ?_⟩
      intro o2 ho2 c2 hc2
      rcases (List.mem_append.mp ho2) with h2 | h2
      · exact hglobal o2 (hsplit ▸ h2) c2 hc2
      · simp only [List.mem_singleton] at h2
        subst h2
        rw [hc2] at hc
        cases hc
    | some c =>
      simp only [hc] at h
      by_cases hb : isBetter c.2.2 (findBest s l wr)
      · rw [if_pos hb] at h
        obtain rfl : c = (lc, oid, t) := by injection h
        refine ⟨l, o, [], rfl, hc, ?_, ?_⟩
        · intro o2 ho2 c2 hc2
          cases hfb : findBest s l wr with
          | none =>
            have := (findBest_eq_none_iff s l wr).mp hfb o2 ho2
            rw [this] at hc2; cases hc2
          | some b =>
            obtain ⟨b1, b2, b3⟩ := b
            obtain ⟨l1, o1, l2, hsplit, hcand, hearlier, hglobal⟩ :=
              ih b1 b2 b3 hfb
            have hbb : (lc, oid, t).2.2 < b3 := by
              have := hb; rw [hfb] at this; exact this
            have hle := hglobal o2 ho2 c2 hc2
            exact lt_of_lt_of_le hbb hle
        · intro o2 ho2 c2 hc2
          rcases (List.mem_append.mp ho2) with h2 | h2
          · cases hfb : findBest s l wr with
            | none =>
              have := (findBest_eq_none_iff s l wr).mp hfb o2 h2
              rw [this] at hc2; cases hc2
            | some b =>
              obtain ⟨b1, b2, b3⟩ := b
              obtain ⟨l1, o1, l2, hsplit, hcand, hearlier, hglobal⟩ :=
                ih b1 b2 b3 hfb
              have hbb : (lc, oid, t).2.2 < b3 := by
                have := hb; rw [hfb] at this; exact this
              exact le_of_lt (lt_of_lt_of_le hbb (hglobal o2 h2 c2 hc2))
          · simp only [List.mem_singleton] at h2
            subst h2
            rw [hc2] at hc
            obtain rfl : c2 = (lc, oid, t) := by injection hc
            exact le_refl _
      · rw [if_neg hb] at h
        obtain ⟨l1, o1, l2, hsplit, hcand, hearlier, hglobal⟩ := ih lc oid t h
        refine ⟨l1, o1, l2 ++ [o], by simp [hsplit], hcand, hearlier, ?_⟩
        intro o2 ho2 c2 hc2
        rcases (List.mem_append.mp ho2) with h2 | h2
        · exact hglobal o2 (hsplit ▸ h2) c2 hc2
        · simp only [List.mem_singleton] at h2
          subst h2
          rw [hc2] at hc
          injection hc with hcc
          rw [h] at hb
          rw [hcc]
          exact le_of_not_lt hb

/-- Membership form of the scan result: the winner is one of the orders
and carries that order's id. -/
lemma findBest_mem (s : DeliveryState) (orders : List Order) (wr : Bool)
    (lc : Location) (oid : String) (t : ℝ)
    (h : findBest s orders wr = some (lc, oid, t)) :
    ∃ o ∈ orders, o.id = oid ∧ cand s wr o = some (lc, oid, t) := by
  obtain ⟨l1, o, l2, hsplit, hcand, _, _⟩ := findBest_some_spec s orders wr lc oid t h
  exact ⟨o, by simp [hsplit], (cand_id s wr o lc oid t hcand).symm, hcand⟩

lemma select_candidate_of_findBest (s : DeliveryState) (orders : List Order)
    (c : Location × String × ℝ) (h : findBest s orders false = some c) :
    select_candidate s orders = some c := by
  simp [select_candidate, h]

/-- Whenever some order is still undelivered, the first (non-waiting) pass
already returns a candidate: its pickup guard holds vacuously when
`waiting_required` is false, its delivery guard otherwise. -/
lemma select_candidate_progress (s : DeliveryState) (orders : List Order)
    (o : Order) (ho : o ∈ orders) (hnd : o.id ∉ s.delivered_orders) :
    ∃ c, select_candidate s orders = some c ∧ findBest s orders false = some c := by
  cases hfb : findBest s orders false with
  | none =>
    exact absurd ((findBest_eq_none_iff s orders false).mp hfb o ho)
      (cand_ne_none_of_not_delivered s o hnd)
  | some c => exact ⟨c, select_candidate_of_findBest s orders c hfb, rfl⟩

/-- Pickup branch of the loop body (lines 132-153): the candidate location
is the matching order's restaurant location.  Preparation end time is
`max(arrival, prep_time)`; a waiting event appears exactly when it exceeds
the arrival time; the pickup event carries the (possibly advanced) time. -/
lemma loop_body_pickup (orders : List Order) (s : DeliveryState)
    (route : List Location) (tl : List Event) (lc : Location) (oid : String)
    (t : ℝ) (o : Order)
    (hsel : select_candidate s orders = some (lc, oid, t))
    (hfind : orders.find? (fun o2 => o2.id == oid) = some o)
    (hloc : lc = o.restaurant.location) :
    loop_body orders s route tl = some
      ({ location := lc, time := max t o.restaurant.prep_time,
         picked_up_orders := insert oid s.picked_up_orders,
         delivered_orders := s.delivered_orders,
         restaurant_arrival_times := s.restaurant_arrival_times },
       route ++ [lc],
       (tl ++ (if max t o.restaurant.prep_time > t then
           [Event.waiting lc.name oid t (max t o.restaurant.prep_time)] else [])) ++
         [Event.pickup lc.name oid (max t o.restaurant.prep_time)]) := by
  simp only [loop_body, hsel, hfind]
  rw [if_pos hloc]
  by_cases hgt : max t o.restaurant.prep_time > t
  · simp only [if_pos hgt]
  · have hmax : max t o.restaurant.prep_time = t :=
      le_antisymm (not_lt.mp hgt) (le_max_left _ _)
    simp only [if_neg hgt, hmax]
    simp

/-- Delivery branch of the loop body (lines 154-165). -/
lemma loop_body_delivery (orders : List Order) (s : DeliveryState)
    (route : List Location) (tl : List Event) (lc : Location) (oid : String)
    (t : ℝ) (o : Order)
    (hsel : select_candidate s orders = some (lc, oid, t))
    (hfind : orders.find? (fun o2 => o2.id == oid) = some o)
    (hloc : lc ≠ o.restaurant.location) :
    loop_body orders s route tl = some
      ({ location := lc, time := t,
         picked_up_orders := s.picked_up_orders,
         delivered_orders := insert oid s.delivered_orders,
         restaurant_arrival_times := s.restaurant_arrival_times },
       route ++ [lc], tl ++ [Event.delivery lc.name oid t]) := by
  simp only [loop_body, hsel, hfind]
  rw [if_neg hloc]

/-- `next(o for o in orders if o.id == order_id)` returns the unique order
with the given id when ids are pairwise distinct. -/
lemma find?_of_nodup (orders : List Order) (o : Order) (ho : o ∈ orders)
    (hnd : (orders.map Order.id).Nodup) :
    orders.find? (fun o2 => o2.id == o.id) = some o := by
  induction orders with
  | nil => cases ho
  | cons a l ih =>
    simp only [List.map_cons, List.nodup_cons] at hnd
    rcases List.mem_cons.mp ho with rfl | hmem
    · simp [List.find?_cons]
    · have hne : a.id ≠ o.id := by
        intro he
        exact hnd.1 (he ▸ List.mem_map.mpr ⟨o, hmem, rfl⟩)
      rw [List.find?_cons_of_neg _ (by simpa using hne)]
      exact ih hmem hnd.2

/-- End instant of an event (for waiting events the end of the wait). -/
def eventEnd : Event → ℝ
  | Event.waiting _ _ _ e => e
  | Event.pickup _ _ t => t
  | Event.delivery _ _ t => t

/-- Recognizer for pickup events of a given order id. -/
def isPickupOf (i : String) : Event → Bool
  | Event.pickup _ j _ => j == i
  | _ => false

/-- Recognizer for delivery events of a given order id. -/
def isDeliveryOf (i : String) : Event → Bool
  | Event.delivery _ j _ => j == i
  | _ => false

/-- Number of pickup events for an order id in a timeline. -/
def pickupCount (tl : List Event) (i : String) : ℕ :=
  (tl.filter (isPickupOf i)).length

/-- Number of delivery events for an order id in a timeline. -/
def deliveryCount (tl : List Event) (i : String) : ℕ :=
  (tl.filter (isDeliveryOf i)).length

/-- The set of order ids of an order list. -/
def orderIds (orders : List Order) : Finset String := (orders.map Order.id).toFinset

@[simp] lemma pickupCount_nil (i : String) : pickupCount [] i = 0 := rfl

@[simp] lemma deliveryCount_nil (i : String) : deliveryCount [] i = 0 := rfl

@[simp] lemma pickupCount_append (tl1 tl2 : List Event) (i : String) :
    pickupCount (tl1 ++ tl2) i = pickupCount tl1 i + pickupCount tl2 i := by
  simp [pickupCount, List.filter_append]

@[simp] lemma deliveryCount_append (tl1 tl2 : List Event) (i : String) :
    deliveryCount (tl1 ++ tl2) i = deliveryCount tl1 i + deliveryCount tl2 i := by
  simp [deliveryCount, List.filter_append]

@[simp] lemma pickupCount_pickup_single (a j : String) (t : ℝ) (i : String) :
    pickupCount [Event.pickup a j t] i = if j = i then 1 else 0 := by
  by_cases h : j = i <;> simp [pickupCount, isPickupOf, h]

@[simp] lemma pickupCount_waiting_single (a j : String) (t1 t2 : ℝ) (i : String) :
    pickupCount [Event.waiting a j t1 t2] i = 0 := by
  simp [pickupCount, isPickupOf]

@[simp] lemma pickupCount_delivery_single (a j : String) (t : ℝ) (i : String) :
    pickupCount [Event.delivery a j t] i = 0 := by
  simp [pickupCount, isPickupOf]

@[simp] lemma deliveryCount_delivery_single (a j : String) (t : ℝ) (i : String) :
    deliveryCount [Event.delivery a j t] i = if j = i then 1 else 0 := by
  by_cases h : j = i <;> simp [deliveryCount, isDeliveryOf, h]

@[simp] lemma deliveryCount_pickup_single (a j : String) (t : ℝ) (i : String) :
    deliveryCount [Event.pickup a j t] i = 0 := by
  simp [deliveryCount, isDeliveryOf]

@[simp] lemma deliveryCount_waiting_single (a j : String) (t1 t2 : ℝ) (i : String) :
    deliveryCount [Event.waiting a j t1 t2] i = 0 := by
  simp [deliveryCount, isDeliveryOf]

lemma no_delivery_event (tl : List Event) (i : String)
    (h : deliveryCount tl i = 0) (b : String) (t2 : ℝ) :
    Event.delivery b i t2 ∉ tl := by
  intro hmem
  have hnil : tl.filter (isDeliveryOf i) = [] := List.length_eq_zero.mp h
  have := List.filter_eq_nil_iff.mp hnil _ hmem
  simp [isDeliveryOf] at this

lemma no_pickup_event (tl : List Event) (i : String)
    (h : pickupCount tl i = 0) (b : String) (t1 : ℝ) :
    Event.pickup b i t1 ∉ tl := by
  intro hmem
  have hnil : tl.filter (isPickupOf i) = [] := List.length_eq_zero.mp h
  have := List.filter_eq_nil_iff.mp hnil _ hmem
  simp [isPickupOf] at this

/-- The inductive invariant of the route-construction loop, for inputs with
pairwise-distinct ids whose customers differ from their restaurants. -/
structure Inv (orders : List Order) (s : DeliveryState) (route : List Location)
    (tl : List Event) : Prop where
  picked_sub : s.picked_up_orders ⊆ orderIds orders
  del_sub : s.delivered_orders ⊆ s.picked_up_orders
  route_len : route.length = s.picked_up_orders.card + s.delivered_orders.card
  pickup_cnt : ∀ i : String, pickupCount tl i = if i ∈ s.picked_up_orders then 1 else 0
  del_cnt : ∀ i : String, deliveryCount tl i = if i ∈ s.delivered_orders then 1 else 0
  times_le : ∀ e ∈ tl, eventEnd e ≤ s.time
  pick_del : ∀ a b i t1 t2, Event.pickup a i t1 ∈ tl → Event.delivery b i t2 ∈ tl →
    t1 ≤ t2

lemma Inv_init_state (orders : List Order) (loc : Location) :
    Inv orders (DeliveryState.init loc 0) [] [] := by
  refine ⟨?_, ?_, ?_, ?_, ?_, ?_, ?_⟩ <;>
    simp [DeliveryState.init]

lemma orderIds_card (orders : List Order) (hnd : (orders.map Order.id).Nodup) :
    (orderIds orders).card = orders.length := by
  simp [orderIds, List.toFinset_card_of_nodup hnd]

lemma mem_orderIds (orders : List Order) (o : Order) (ho : o ∈ orders) :
    o.id ∈ orderIds orders := by
  simp only [orderIds, List.mem_toFinset, List.mem_map]
  exact ⟨o, ho, rfl⟩

/-- One loop iteration preserves the invariant and advances exactly one
order by one stage, never moving time backwards. -/
lemma loop_body_invariant (orders : List Order) (s : DeliveryState)
    (route : List Location) (tl : List Event)
    (hnd : (orders.map Order.id).Nodup)
    (hsep : ∀ o ∈ orders, o.customer ≠ o.restaurant.location)
    (hinv : Inv orders s route tl)
    (hguard : s.delivered_orders.card < orders.length) :
    ∃ s2 route2 tl2, loop_body orders s route tl = some (s2, route2, tl2) ∧
      Inv orders s2 route2 tl2 ∧
      s2.picked_up_orders.card + s2.delivered_orders.card =
        s.picked_up_orders.card + s.delivered_orders.card + 1 ∧
      s.time ≤ s2.time := by
  have hcard : (orderIds orders).card = orders.length := orderIds_card orders hnd
  have hex : ∃ o ∈ orders, o.id ∉ s.delivered_orders := by
    by_contra hno
    push_neg at hno
    have hsub : orderIds orders ⊆ s.delivered_orders := by
      intro i hi
      simp only [orderIds, List.mem_toFinset, List.mem_map] at hi
      obtain ⟨o, ho, rfl⟩ := hi
      exact hno o ho
    have := Finset.card_le_card hsub
    omega
  obtain ⟨o, ho, hodel⟩ := hex
  obtain ⟨c, hsel, hfb⟩ := select_candidate_progress s orders o ho hodel
  obtain ⟨lc, oid, t⟩ := c
  obtain ⟨o2, ho2, hid, hcand⟩ := findBest_mem s orders false lc oid t hfb
  subst hid
  have hfind : orders.find? (fun x => x.id == o2.id) = some o2 :=
    find?_of_nodup orders o2 ho2 hnd
  have hmemids : o2.id ∈ orderIds orders := mem_orderIds orders o2 ho2
  rcases cand_cases s false o2 lc o2.id t hcand with
    ⟨hp, hlc, _, ht⟩ | ⟨hnp, hdo, hlc, _, ht⟩
  · -- pickup branch: the candidate location is the restaurant location
    subst hlc
    have hts : s.time ≤ t := ht ▸ pickupArrival_ge s o2
    have hnotpicked : o2.id ∉ s.picked_up_orders := hp.1
    have hnotdel : o2.id ∉ s.delivered_orders := fun hc => hnotpicked (hinv.del_sub hc)
    have hstep := loop_body_pickup orders s route tl o2.restaurant.location o2.id t o2
      hsel hfind rfl
    set T := max t o2.restaurant.prep_time with hT
    have htT : t ≤ T := le_max_left _ _
    refine ⟨_, _, _, hstep, ⟨?_, ?_, ?_, ?_, ?_, ?_, ?_⟩, ?_, ?_⟩
    · -- picked_sub
      exact Finset.insert_subset hmemids hinv.picked_sub
    · -- del_sub
      exact hinv.del_sub.trans (Finset.subset_insert _ _)
    · -- route_len
      simp only [List.length_append, List.length_singleton, hinv.route_len,
        Finset.card_insert_of_not_mem hnotpicked]
      ring
    · -- pickup_cnt
      intro i
      have hold := hinv.pickup_cnt i
      by_cases hgt : T > t
      · simp only [if_pos hgt, pickupCount_append, pickupCount_waiting_single,
          pickupCount_pickup_single]
        by_cases hi : i = o2.id
        · subst hi
          simp [hold, hnotpicked]
        · have hi2 : ¬(o2.id = i) := fun h => hi h.symm
          simp [hold, hi, hi2, Finset.mem_insert]
      · simp only [if_neg hgt, List.append_nil, pickupCount_append,
          pickupCount_pickup_single]
        by_cases hi : i = o2.id
        · subst hi
          simp [hold, hnotpicked]
        · have hi2 : ¬(o2.id = i) := fun h => hi h.symm
          simp [hold, hi, hi2, Finset.mem_insert]
    · -- del_cnt
      intro i
      have hold := hinv.del_cnt i
      by_cases hgt : T > t
      · simp only [if_pos hgt, deliveryCount_append, deliveryCount_waiting_single,
          deliveryCount_pickup_single]
        simpa using hold
      · simp only [if_neg hgt, List.append_nil, deliveryCount_append,
          deliveryCount_pickup_single]
        simpa using hold
    · -- times_le
      intro e he
      by_cases hgt : T > t
      · simp only [if_pos hgt, List.mem_append, List.mem_singleton] at he
        rcases he with (he | he) | he
        · exact le_trans (hinv.times_le e he) (le_trans hts htT)
        · subst he; simp [eventEnd]
        · subst he; simp [eventEnd]
      · simp only [if_neg hgt, List.append_nil, List.mem_append,
          List.mem_singleton] at he
        rcases he with he | he
        · exact le_trans (hinv.times_le e he) (le_trans hts htT)
        · subst he; simp [eventEnd]
    · -- pick_del
      intro a b i t1 t2 hpk hdl
      have hdl_old : Event.delivery b i t2 ∈ tl := by
        by_cases hgt : T > t
        · simp only [if_pos hgt, List.mem_append, List.mem_singleton] at hdl
          rcases hdl with (h | h) | h
          · exact h
          · simp at h
          · simp at h
        · simp only [if_neg hgt, List.append_nil, List.mem_append,
            List.mem_singleton] at hdl
          rcases hdl with h | h
          · exact h
          · simp at h
      by_cases hpi : i = o2.id
      · subst hpi
        have h0 : deliveryCount tl o2.id = 0 := by
          have hh := hinv.del_cnt o2.id
          simpa [hnotdel] using hh
        exact absurd hdl_old (no_delivery_event tl o2.id h0 b t2)
      · have hpk_old : Event.pickup a i t1 ∈ tl := by
          by_cases hgt : T > t
          · simp only [if_pos hgt, List.mem_append, List.mem_singleton] at hpk
            rcases hpk with (h | h) | h
            · exact h
            · simp at h
            · injection h with ha hb hc
              exact absurd hb hpi
          · simp only [if_neg hgt, List.append_nil, List.mem_append,
              List.mem_singleton] at hpk
            rcases hpk with h | h
            · exact h
            · injection h with ha hb hc
              exact absurd hb hpi
        exact hinv.pick_del a b i t1 t2 hpk_old hdl_old
    · -- card sum
      simp only [Finset.card_insert_of_not_mem hnotpicked]
      ring
    · -- time monotone
      exact le_trans hts htT
  · -- delivery branch: the candidate location is the customer location
    subst hlc
    have hts : s.time ≤ t := ht ▸ deliveryArrival_ge s o2
    have hlocne : o2.customer ≠ o2.restaurant.location := hsep o2 ho2
    have hstep := loop_body_delivery orders s route tl o2.customer o2.id t o2
      hsel hfind hlocne
    have hnotdel : o2.id ∉ s.delivered_orders := hdo.2
    refine ⟨_, _, _, hstep, ⟨?_, ?_, ?_, ?_, ?_, ?_, ?_⟩, ?_, ?_⟩
    · exact hinv.picked_sub
    · exact Finset.insert_subset hdo.1 hinv.del_sub
    · simp only [List.length_append, List.length_singleton, hinv.route_len,
        Finset.card_insert_of_not_mem hnotdel]
      ring
    · intro i
      have hold := hinv.pickup_cnt i
      simp only [pickupCount_append, pickupCount_delivery_single]
      simpa using hold
    · intro i
      have hold := hinv.del_cnt i
      simp only [deliveryCount_append, deliveryCount_delivery_single]
      by_cases hi : i = o2.id
      · subst hi
        simp [hold, hnotdel]
      · have hi2 : ¬(o2.id = i) := fun h => hi h.symm
        simp [hold, hi, hi2, Finset.mem_insert]
    · intro e he
      simp only [List.mem_append, List.mem_singleton] at he
      rcases he with he | he
      · exact le_trans (hinv.times_le e he) hts
      · subst he; simp [eventEnd]
    · intro a b i t1 t2 hpk hdl
      have hpk_old : Event.pickup a i t1 ∈ tl := by
        simp only [List.mem_append, List.mem_singleton] at hpk
        rcases hpk with h | h
        · exact h
        · simp at h
      simp only [List.mem_append, List.mem_singleton] at hdl
      rcases hdl with hdl | hdl
      · exact hinv.pick_del a b i t1 t2 hpk_old hdl
      · injection hdl with hb1 hb2 hb3
        subst hb2
        subst hb3
        have hle := hinv.times_le _ hpk_old
        simp only [eventEnd] at hle
        exact le_trans hle hts
    · simp only [Finset.card_insert_of_not_mem hnotdel]
      ring
    · exact hts

/-- Running the loop: with distinct ids and customers distinct from
restaurants, `2 * N` fuel always suffices, and the loop exits with every
order delivered and the invariant intact. -/
lemma optimize_route_aux_total (orders : List Order)
    (hnd : (orders.map Order.id).Nodup)
    (hsep : ∀ o ∈ orders, o.customer ≠ o.restaurant.location) :
    ∀ (fuel : ℕ) (s : DeliveryState) (route : List Location) (tl : List Event),
      Inv orders s route tl →
      2 * orders.length ≤ s.picked_up_orders.card + s.delivered_orders.card + fuel →
      ∃ s2 route2 tl2,
        optimize_route_aux orders fuel s route tl = some (route2, s2.time, tl2) ∧
        Inv orders s2 route2 tl2 ∧ orders.length ≤ s2.delivered_orders.card := by
  intro fuel
  induction fuel with
  | zero =>
    intro s route tl hinv hfuel
    have hpc : s.picked_up_orders.card ≤ orders.length := by
      have := Finset.card_le_card hinv.picked_sub
      rw [orderIds_card orders hnd] at this
      exact this
    have hdc : s.delivered_orders.card ≤ s.picked_up_orders.card :=
      Finset.card_le_card hinv.del_sub
    have hdone : ¬ s.delivered_orders.card < orders.length := by omega
    refine ⟨s, route, tl, ?_, hinv, by omega⟩
    simp [optimize_route_aux, hdone]
  | succ f ihf =>
    intro s route tl hinv hfuel
    by_cases hguard : s.delivered_orders.card < orders.length
    · obtain ⟨s2, route2, tl2, hstep, hinv2, hsum, _⟩ :=
        loop_body_invariant orders s route tl hnd hsep hinv hguard
      have hfuel2 : 2 * orders.length ≤
          s2.picked_up_orders.card + s2.delivered_orders.card + f := by omega
      obtain ⟨s3, route3, tl3, hrun, hinv3, hdone⟩ := ihf s2 route2 tl2 hinv2 hfuel2
      refine ⟨s3, route3, tl3, ?_, hinv3, hdone⟩
      simp [optimize_route_aux, hguard, hstep, hrun]
    · refine ⟨s, route, tl, ?_, hinv, le_of_not_lt hguard⟩
      simp [optimize_route_aux, hguard]

/-- At loop exit both id sets coincide with the input id set. -/
lemma final_sets (orders : List Order) (hnd : (orders.map Order.id).Nodup)
    (s2 : DeliveryState) (route2 : List Location) (tl2 : List Event)
    (hinv : Inv orders s2 route2 tl2)
    (hdone : orders.length ≤ s2.delivered_orders.card) :
    s2.delivered_orders = orderIds orders ∧ s2.picked_up_orders = orderIds orders := by
  have hcard := orderIds_card orders hnd
  have h1 : s2.delivered_orders = orderIds orders := by
    apply Finset.eq_of_subset_of_card_le (hinv.del_sub.trans hinv.picked_sub)
    omega
  have h2 : s2.picked_up_orders = orderIds orders := by
    apply Finset.eq_of_subset_of_card_le hinv.picked_sub
    calc (orderIds orders).card ≤ s2.delivered_orders.card := by omega
      _ ≤ s2.picked_up_orders.card := Finset.card_le_card hinv.del_sub
  exact ⟨h1, h2⟩

/-- A weaker invariant that holds for any input with pairwise-distinct
ids, whether or not the loop can finish. -/
structure WInv (s : DeliveryState) (tl : List Event) : Prop where
  del_sub : s.delivered_orders ⊆ s.picked_up_orders
  times_le : ∀ e ∈ tl, eventEnd e ≤ s.time
  del_mem : ∀ b i t2, Event.delivery b i t2 ∈ tl → i ∈ s.delivered_orders
  pick_del : ∀ a b i t1 t2, Event.pickup a i t1 ∈ tl → Event.delivery b i t2 ∈ tl →
    t1 ≤ t2

lemma select_candidate_some (s : DeliveryState) (orders : List Order)
    (c : Location × String × ℝ) (h : select_candidate s orders = some c) :
    findBest s orders false = some c ∨ findBest s orders true = some c := by
  unfold select_candidate at h
  cases hfb : findBest s orders false with
  | none => rw [hfb] at h; exact Or.inr h
  | some c2 =>
    rw [hfb] at h
    injection h with h2
    subst h2
    exact Or.inl rfl

/-- One loop iteration preserves the weak invariant under distinct ids
alone, and never moves time backwards. -/
lemma loop_body_winv (orders : List Order) (s : DeliveryState)
    (route : List Location) (tl : List Event)
    (hnd : (orders.map Order.id).Nodup) (hw : WInv s tl)
    (s2 : DeliveryState) (route2 : List Location) (tl2 : List Event)
    (hstep : loop_body orders s route tl = some (s2, route2, tl2)) :
    WInv s2 tl2 ∧ s.time ≤ s2.time := by
  cases hsel : select_candidate s orders with
  | none =>
    unfold loop_body at hstep
    rw [hsel] at hstep
    simp only [Option.some.injEq, Prod.mk.injEq] at hstep
    obtain ⟨rfl, rfl, rfl⟩ := hstep
    exact ⟨hw, le_refl _⟩
  | some c =>
    obtain ⟨lc, oid, t⟩ := c
    have hfb : findBest s orders false = some (lc, oid, t) ∨
        findBest s orders true = some (lc, oid, t) := select_candidate_some s orders _ hsel
    have hmem : ∃ wr, findBest s orders wr = some (lc, oid, t) := by
      rcases hfb with h | h
      · exact ⟨false, h⟩
      · exact ⟨true, h⟩
    obtain ⟨wr, hfbw⟩ := hmem
    obtain ⟨o2, ho2, hid, hcand⟩ := findBest_mem s orders wr lc oid t hfbw
    subst hid
    have hfind : orders.find? (fun x => x.id == o2.id) = some o2 :=
      find?_of_nodup orders o2 ho2 hnd
    have hts : s.time ≤ t := by
      rcases cand_cases s wr o2 lc o2.id t hcand with ⟨_, _, _, ht⟩ | ⟨_, _, _, _, ht⟩
      · exact ht ▸ pickupArrival_ge s o2
      · exact ht ▸ deliveryArrival_ge s o2
    have hnotdel2 : o2.id ∉ s.delivered_orders := by
      rcases cand_cases s wr o2 lc o2.id t hcand with ⟨hp, _, _, _⟩ | ⟨_, hdo, _, _, _⟩
      · exact fun hc => hp.1 (hw.del_sub hc)
      · exact hdo.2
    by_cases hloc : lc = o2.restaurant.location
    · -- pickup path
      subst hloc
      rw [loop_body_pickup orders s route tl o2.restaurant.location o2.id t o2
        hsel hfind rfl] at hstep
      simp only [Option.some.injEq, Prod.mk.injEq] at hstep
      obtain ⟨rfl, rfl, rfl⟩ := hstep
      set T := max t o2.restaurant.prep_time with hT
      have htT : t ≤ T := le_max_left _ _
      refine ⟨⟨?_, ?_, ?_, ?_⟩, le_trans hts htT⟩
      · exact hw.del_sub.trans (Finset.subset_insert _ _)
      · intro e he
        by_cases hgt : T > t
        · simp only [if_pos hgt, List.mem_append, List.mem_singleton] at he
          rcases he with (he | he) | he
          · exact le_trans (hw.times_le e he) (le_trans hts htT)
          · subst he; simp [eventEnd]
          · subst he; simp [eventEnd]
        · simp only [if_neg hgt, List.append_nil, List.mem_append,
            List.mem_singleton] at he
          rcases he with he | he
          · exact le_trans (hw.times_le e he) (le_trans hts htT)
          · subst he; simp [eventEnd]
      · intro b i t2 hdl
        have hdl_old : Event.delivery b i t2 ∈ tl := by
          by_cases hgt : T > t
          · simp only [if_pos hgt, List.mem_append, List.mem_singleton] at hdl
            rcases hdl with (h | h) | h
            · exact h
            · simp at h
            · simp at h
          · simp only [if_neg hgt, List.append_nil, List.mem_append,
              List.mem_singleton] at hdl
            rcases hdl with h | h
            · exact h
            · simp at h
        exact hw.del_mem b i t2 hdl_old
      · intro a b i t1 t2 hpk hdl
        have hdl_old : Event.delivery b i t2 ∈ tl := by
          by_cases hgt : T > t
          · simp only [if_pos hgt, List.mem_append, List.mem_singleton] at hdl
            rcases hdl with (h | h) | h
            · exact h
            · simp at h
            · simp at h
          · simp only [if_neg hgt, List.append_nil, List.mem_append,
              List.mem_singleton] at hdl
            rcases hdl with h | h
            · exact h
            · simp at h
        by_cases hpi : i = o2.id
        · subst hpi
          exact absurd (hw.del_mem b o2.id t2 hdl_old) hnotdel2
        · have hpk_old : Event.pickup a i t1 ∈ tl := by
            by_cases hgt : T > t
            · simp only [if_pos hgt, List.mem_append, List.mem_singleton] at hpk
              rcases hpk with (h | h) | h
              · exact h
              · simp at h
              · injection h with ha hb hc
                exact absurd hb hpi
            · simp only [if_neg hgt, List.append_nil, List.mem_append,
                List.mem_singleton] at hpk
              rcases hpk with h | h
              · exact h
              · injection h with ha hb hc
                exact absurd hb hpi
          exact hw.pick_del a b i t1 t2 hpk_old hdl_old
    · -- delivery path: the candidate can only be a delivery candidate
      have hdo : deliveryOk s o2 := by
        rcases cand_cases s wr o2 lc o2.id t hcand with ⟨_, hlc, _, _⟩ | ⟨_, hdo, _, _, _⟩
        · exact absurd hlc hloc
        · exact hdo
      rw [loop_body_delivery orders s route tl lc o2.id t o2 hsel hfind hloc] at hstep
      simp only [Option.some.injEq, Prod.mk.injEq] at hstep
      obtain ⟨rfl, rfl, rfl⟩ := hstep
      refine ⟨⟨?_, ?_, ?_, ?_⟩, hts⟩
      · exact Finset.insert_subset hdo.1 hw.del_sub
      · intro e he
        simp only [List.mem_append, List.mem_singleton] at he
        rcases he with he | he
        · exact le_trans (hw.times_le e he) hts
        · subst he; simp [eventEnd]
      · intro b i t2 hdl
        simp only [List.mem_append, List.mem_singleton] at hdl
        rcases hdl with hdl | hdl
        · exact Finset.mem_insert_of_mem (hw.del_mem b i t2 hdl)
        · injection hdl with hb1 hb2 hb3
          subst hb2
          exact Finset.mem_insert_self _ _
      · intro a b i t1 t2 hpk hdl
        have hpk_old : Event.pickup a i t1 ∈ tl := by
          simp only [List.mem_append, List.mem_singleton] at hpk
          rcases hpk with h | h
          · exact h
          · simp at h
        simp only [List.mem_append, List.mem_singleton] at hdl
        rcases hdl with hdl | hdl
        · exact hw.pick_del a b i t1 t2 hpk_old hdl
        · injection hdl with hb1 hb2 hb3
          subst hb2
          subst hb3
          have hle := hw.times_le _ hpk_old
          simp only [eventEnd] at hle
          exact le_trans hle hts

/-- Pickup-before-delivery holds of any timeline an arbitrary-fuel run of
the loop can return, given pairwise-distinct ids. -/
lemma optimize_route_aux_winv (orders : List Order)
    (hnd : (orders.map Order.id).Nodup) :
    ∀ (fuel : ℕ) (s : DeliveryState) (route : List Location) (tl : List Event)
      (route2 : List Location) (time2 : ℝ) (tl2 : List Event),
      WInv s tl →
      optimize_route_aux orders fuel s route tl = some (route2, time2, tl2) →
      ∀ a b i t1 t2, Event.pickup a i t1 ∈ tl2 → Event.delivery b i t2 ∈ tl2 →
        t1 ≤ t2 := by
  intro fuel
  induction fuel with
  | zero =>
    intro s route tl route2 time2 tl2 hw hrun
    unfold optimize_route_aux at hrun
    split_ifs at hrun with hg
    simp only [Option.some.injEq, Prod.mk.injEq] at hrun
    obtain ⟨rfl, rfl, rfl⟩ := hrun
    exact hw.pick_del
  | succ f ihf =>
    intro s route tl route2 time2 tl2 hw hrun
    unfold optimize_route_aux at hrun
    split_ifs at hrun with hg
    · cases hlb : loop_body orders s route tl with
      | none => rw [hlb] at hrun; cases hrun
      | some x =>
        obtain ⟨s2, route2x, tl2x⟩ := x
        rw [hlb] at hrun
        obtain ⟨hw2, _⟩ := loop_body_winv orders s route tl hnd hw s2 route2x tl2x hlb
        exact ihf s2 route2x tl2x route2 time2 tl2 hw2 hrun
    · simp only [Option.some.injEq, Prod.mk.injEq] at hrun
      obtain ⟨rfl, rfl, rfl⟩ := hrun
      exact hw.pick_del

lemma WInv_init_state (loc : Location) : WInv (DeliveryState.init loc 0) [] := by
  refine ⟨?_, ?_, ?_, ?_⟩ <;> simp [DeliveryState.init]

/-- The empty order list: the guard `0 < 0` fails at once. -/
lemma optimize_route_nil (opt : RouteOptimizer) :
    optimize_route opt [] = some ([], 0, []) := by
  simp [optimize_route, optimize_route_aux, DeliveryState.init]

/-- Step-unfolding of the fuelled loop when the guard holds. -/
lemma optimize_route_aux_succ_pos (orders : List Order) (fuel : ℕ)
    (s : DeliveryState) (route : List Location) (tl : List Event)
    (h : s.delivered_orders.card < orders.length)
    (s2 : DeliveryState) (r2 : List Location) (tl2 : List Event)
    (hlb : loop_body orders s route tl = some (s2, r2, tl2)) :
    optimize_route_aux orders (fuel + 1) s route tl =
      optimize_route_aux orders fuel s2 r2 tl2 := by
  simp [optimize_route_aux, h, hlb]

/-- The loop exits as soon as the guard fails. -/
lemma optimize_route_aux_zero_done (orders : List Order) (s : DeliveryState)
    (route : List Location) (tl : List Event)
    (h : ¬ s.delivered_orders.card < orders.length) :
    optimize_route_aux orders 0 s route tl = some (route, s.time, tl) := by
  simp [optimize_route_aux, h]

lemma travel_time00 (n m : String) :
    travel_time ⟨n, 0, 0⟩ ⟨m, 0, 0⟩ = 0 :=
  travel_time_eq_zero _ _ rfl rfl

lemma findBest_singleton (s : DeliveryState) (o : Order) (wr : Bool) :
    findBest s [o] wr = considerOrder s wr none o := by
  simp [findBest]

/-! Concrete inputs for witnesses and counterexamples.  All coordinates
are zero, so every travel time is zero and the loop arithmetic is exact. -/

def c4driver : Location := ⟨"D4", 0, 0⟩

def o4 : Order := ⟨"o4", ⟨⟨"R4", 0, 0⟩, 0⟩, ⟨"C4", 0, 0⟩⟩

def s40 : DeliveryState := DeliveryState.init c4driver 0

def s41 : DeliveryState := ⟨⟨"R4", 0, 0⟩, 0, insert "o4" ∅, ∅, []⟩

def s42 : DeliveryState := ⟨⟨"C4", 0, 0⟩, 0, insert "o4" ∅, insert "o4" ∅, []⟩

lemma hfb40 : findBest s40 [o4] false = some (⟨"R4", 0, 0⟩, "o4", (0:ℝ)) := by
  rw [findBest_singleton]
  unfold considerOrder
  norm_num [s40, c4driver, o4, DeliveryState.init, travel_time00, isBetter]

lemma hsel40 : select_candidate s40 [o4] = some (⟨"R4", 0, 0⟩, "o4", (0:ℝ)) :=
  select_candidate_of_findBest _ _ _ hfb40

lemma hfind4 : [o4].find? (fun o2 => o2.id == "o4") = some o4 := rfl

lemma eval4_step1 : loop_body [o4] s40 [] [] =
    some (s41, [(⟨"R4", 0, 0⟩ : Location)], [Event.pickup "R4" "o4" 0]) := by
  rw [loop_body_pickup [o4] s40 [] [] ⟨"R4", 0, 0⟩ "o4" 0 o4 hsel40 hfind4 rfl]
  norm_num [s41, o4, s40, DeliveryState.init]

lemma hfb41 : findBest s41 [o4] false = some (⟨"C4", 0, 0⟩, "o4", (0:ℝ)) := by
  rw [findBest_singleton]
  unfold considerOrder
  norm_num [s41, o4, travel_time00, isBetter]

lemma hsel41 : select_candidate s41 [o4] = some (⟨"C4", 0, 0⟩, "o4", (0:ℝ)) :=
  select_candidate_of_findBest _ _ _ hfb41

lemma hne4 : (⟨"C4", 0, 0⟩ : Location) ≠ o4.restaurant.location := by
  intro h
  exact absurd (congrArg Location.name h) (by decide)

lemma eval4_step2 :
    loop_body [o4] s41 [(⟨"R4", 0, 0⟩ : Location)] [Event.pickup "R4" "o4" 0] =
      some (s42, [(⟨"R4", 0, 0⟩ : Location), ⟨"C4", 0, 0⟩],
        [Event.pickup "R4" "o4" 0, Event.delivery "C4" "o4" 0]) := by
  rw [loop_body_delivery [o4] s41 [⟨"R4", 0, 0⟩] [Event.pickup "R4" "o4" 0]
    ⟨"C4", 0, 0⟩ "o4" 0 o4 hsel41 hfind4 hne4]
  norm_num [s42, s41]

lemma eval4 : optimize_route ⟨c4driver⟩ [o4] =
    some ([(⟨"R4", 0, 0⟩ : Location), ⟨"C4", 0, 0⟩], (0:ℝ),
      [Event.pickup "R4" "o4" 0, Event.delivery "C4" "o4" 0]) := by
  show optimize_route_aux [o4] (1 + 1) s40 [] [] = _
  rw [optimize_route_aux_succ_pos [o4] 1 s40 [] []
    (by simp [s40, DeliveryState.init]) s41 _ _ eval4_step1]
  rw [show (1:ℕ) = 0 + 1 from rfl]
  rw [optimize_route_aux_succ_pos [o4] 0 s41 _ _ (by simp [s41]) s42 _ _ eval4_step2]
  rw [optimize_route_aux_zero_done [o4] s42 _ _ (by simp [s42])]
  norm_num [s42]

lemma optimize_route_aux_zero_stuck (orders : List Order) (s : DeliveryState)
    (route : List Location) (tl : List Event)
    (h : s.delivered_orders.card < orders.length) :
    optimize_route_aux orders 0 s route tl = none := by
  simp [optimize_route_aux, h]

/-! An order whose customer location equals its restaurant location: the
delivery stop is then misclassified as a pickup (line 134 compares the
candidate location with the restaurant location), the order is never
delivered, and the loop never exits. -/

def b2driver : Location := ⟨"DB2", 0, 0⟩

def b2order : Order := ⟨"b2", ⟨⟨"P2", 0, 0⟩, 0⟩, ⟨"P2", 0, 0⟩⟩

def sB20 : DeliveryState := DeliveryState.init b2driver 0

def sB21 : DeliveryState := ⟨⟨"P2", 0, 0⟩, 0, insert "b2" ∅, ∅, []⟩

def sB22 : DeliveryState :=
  ⟨⟨"P2", 0, 0⟩, 0, insert "b2" (insert "b2" ∅), ∅, []⟩

lemma hfbB20 : findBest sB20 [b2order] false = some (⟨"P2", 0, 0⟩, "b2", (0:ℝ)) := by
  rw [findBest_singleton]
  unfold considerOrder
  norm_num [sB20, b2driver, b2order, DeliveryState.init, travel_time00, isBetter]

lemma hfindB2 : [b2order].find? (fun o2 => o2.id == "b2") = some b2order := rfl

lemma evalB2_step1 : loop_body [b2order] sB20 [] [] =
    some (sB21, [(⟨"P2", 0, 0⟩ : Location)], [Event.pickup "P2" "b2" 0]) := by
  rw [loop_body_pickup [b2order] sB20 [] [] ⟨"P2", 0, 0⟩ "b2" 0 b2order
    (select_candidate_of_findBest _ _ _ hfbB20) hfindB2 rfl]
  norm_num [sB21, b2order, sB20, DeliveryState.init]

lemma hfbB21 : findBest sB21 [b2order] false = some (⟨"P2", 0, 0⟩, "b2", (0:ℝ)) := by
  rw [findBest_singleton]
  unfold considerOrder
  norm_num [sB21, b2order, travel_time00, isBetter]

lemma evalB2_step2 :
    loop_body [b2order] sB21 [(⟨"P2", 0, 0⟩ : Location)] [Event.pickup "P2" "b2" 0] =
      some (sB22, [(⟨"P2", 0, 0⟩ : Location), ⟨"P2", 0, 0⟩],
        [Event.pickup "P2" "b2" 0, Event.pickup "P2" "b2" 0]) := by
  rw [loop_body_pickup [b2order] sB21 [⟨"P2", 0, 0⟩] [Event.pickup "P2" "b2" 0]
    ⟨"P2", 0, 0⟩ "b2" 0 b2order
    (select_candidate_of_findBest _ _ _ hfbB21) hfindB2 rfl]
  norm_num [sB22, sB21, b2order]

lemma evalB2 : optimize_route ⟨b2driver⟩ [b2order] = none := by
  show optimize_route_aux [b2order] (1 + 1) sB20 [] [] = none
  rw [optimize_route_aux_succ_pos [b2order] 1 sB20 [] []
    (by simp [sB20, DeliveryState.init]) sB21 _ _ evalB2_step1]
  rw [show (1:ℕ) = 0 + 1 from rfl]
  rw [optimize_route_aux_succ_pos [b2order] 0 sB21 _ _ (by simp [sB21]) sB22 _ _
    evalB2_step2]
  exact optimize_route_aux_zero_stuck [b2order] sB22 _ _ (by simp [sB22])

def b3driver : Location := ⟨"DB3", 0, 0⟩

def b3order : Order := ⟨"b3", ⟨⟨"P3", 0, 0⟩, 0⟩, ⟨"P3", 0, 0⟩⟩

def sB30 : DeliveryState := DeliveryState.init b3driver 0

def sB31 : DeliveryState := ⟨⟨"P3", 0, 0⟩, 0, insert "b3" ∅, ∅, []⟩

def sB32 : DeliveryState :=
  ⟨⟨"P3", 0, 0⟩, 0, insert "b3" (insert "b3" ∅), ∅, []⟩

lemma hfbB30 : findBest sB30 [b3order] false = some (⟨"P3", 0, 0⟩, "b3", (0:ℝ)) := by
  rw [findBest_singleton]
  unfold considerOrder
  norm_num [sB30, b3driver, b3order, DeliveryState.init, travel_time00, isBetter]

lemma hfindB3 : [b3order].find? (fun o2 => o2.id == "b3") = some b3order := rfl

lemma evalB3_step1 : loop_body [b3order] sB30 [] [] =
    some (sB31, [(⟨"P3", 0, 0⟩ : Location)], [Event.pickup "P3" "b3" 0]) := by
  rw [loop_body_pickup [b3order] sB30 [] [] ⟨"P3", 0, 0⟩ "b3" 0 b3order
    (select_candidate_of_findBest _ _ _ hfbB30) hfindB3 rfl]
  norm_num [sB31, b3order, sB30, DeliveryState.init]

lemma hfbB31 : findBest sB31 [b3order] false = some (⟨"P3", 0, 0⟩, "b3", (0:ℝ)) := by
  rw [findBest_singleton]
  unfold considerOrder
  norm_num [sB31, b3order, travel_time00, isBetter]

lemma evalB3_step2 :
    loop_body [b3order] sB31 [(⟨"P3", 0, 0⟩ : Location)] [Event.pickup "P3" "b3" 0] =
      some (sB32, [(⟨"P3", 0, 0⟩ : Location), ⟨"P3", 0, 0⟩],
        [Event.pickup "P3" "b3" 0, Event.pickup "P3" "b3" 0]) := by
  rw [loop_body_pickup [b3order] sB31 [⟨"P3", 0, 0⟩] [Event.pickup "P3" "b3" 0]
    ⟨"P3", 0, 0⟩ "b3" 0 b3order
    (select_candidate_of_findBest _ _ _ hfbB31) hfindB3 rfl]
  norm_num [sB32, sB31, b3order]

lemma evalB3 : optimize_route ⟨b3driver⟩ [b3order] = none := by
  show optimize_route_aux [b3order] (1 + 1) sB30 [] [] = none
  rw [optimize_route_aux_succ_pos [b3order] 1 sB30 [] []
    (by simp [sB30, DeliveryState.init]) sB31 _ _ evalB3_step1]
  rw [show (1:ℕ) = 0 + 1 from rfl]
  rw [optimize_route_aux_succ_pos [b3order] 0 sB31 _ _ (by simp [sB31]) sB32 _ _
    evalB3_step2]
  exact optimize_route_aux_zero_stuck [b3order] sB32 _ _ (by simp [sB32])

/-! Input for the C1 counterexample: prep time 0, so the arrival time can
never be strictly before it, yet the non-waiting pass still selects it. -/

def c1state : DeliveryState := DeliveryState.init ⟨"D1", 0, 0⟩ 0

def o1 : Order := ⟨"o1", ⟨⟨"R1", 0, 0⟩, 0⟩, ⟨"C1", 1, 1⟩⟩

lemma hfb10 : findBest c1state [o1] false = some (⟨"R1", 0, 0⟩, "o1", (0:ℝ)) := by
  rw [findBest_singleton]
  unfold considerOrder
  norm_num [c1state, o1, DeliveryState.init, travel_time00, isBetter]

/-! Input for the C7 witness: the only order is already delivered, so no
candidate exists in either pass. -/

def s7 : DeliveryState := ⟨⟨"D7", 0, 0⟩, 0, insert "z" ∅, insert "z" ∅, []⟩

def o7 : Order := ⟨"z", ⟨⟨"R7", 0, 0⟩, 5⟩, ⟨"C7", 0, 0⟩⟩

/-! Further concrete inputs for witnesses. -/

def w1order : Order := ⟨"w1", ⟨⟨"RW1", 0, 0⟩, 3⟩, ⟨"CW1", 2, 2⟩⟩

def w2order : Order := ⟨"w2", ⟨⟨"RW2", 0, 0⟩, 0⟩, ⟨"CW2", 0, 0⟩⟩

def w3order : Order := ⟨"w3", ⟨⟨"RW3", 0, 0⟩, 0⟩, ⟨"CW3", 0, 0⟩⟩

/-- State-passing translation of `find_nearest_valid_location`: the mutable
`DeliveryState` is threaded explicitly through every iteration of the scan
(each iteration reads it and passes it on unchanged, since the function
body never assigns to any of its fields), making the frame effect visible
in the type. -/
noncomputable def find_nearest_valid_location_st (state : DeliveryState)
    (orders : List Order) (waiting_required : Bool) :
    (Option Location × Option String × WithTop ℝ) × DeliveryState :=
  let r := orders.foldl
    (fun acc order => (considerOrder acc.2 waiting_required acc.1 order, acc.2))
    ((none : Option (Location × String × ℝ)), state)
  (match r.1 with
   | none => (none, none, ⊤)
   | some (l, i, t) => (some l, some i, (t : WithTop ℝ)), r.2)

lemma foldl_st (wr : Bool) (l : List Order) :
    ∀ (acc : Option (Location × String × ℝ)) (s : DeliveryState),
      l.foldl (fun acc2 order => (considerOrder acc2.2 wr acc2.1 order, acc2.2))
          (acc, s) =
        (l.foldl (considerOrder s wr) acc, s) := by
  induction l with
  | nil => intro acc s; rfl
  | cons a l2 ih =>
    intro acc s
    simp only [List.foldl_cons]
    exact ih _ s

/-- C1 (amended): in `find_nearest_valid_location`, an order not yet picked
up is an eligible pickup candidate (i.e. is returned as the pickup
candidate when it is scanned) exactly when either `waitingRequired` is TRUE
and `state.time + travelTime(state.location, order.restaurant.location)` is
strictly less than the restaurant's prep time, or `waitingRequired` is
FALSE, in which case that constraint is removed entirely.  (The source
applies the arrival-before-prep constraint on the waiting pass, not the
non-waiting pass: the spec has the two flag polarities swapped.) -/
theorem C1_pickup_eligibility (s : DeliveryState) (o : Order) (wr : Bool)
    (h : o.id ∉ s.picked_up_orders) :
    find_nearest_valid_location s [o] wr =
      (some o.restaurant.location, some o.id,
        ((pickupArrival s o : ℝ) : WithTop ℝ)) ↔
      (wr = true → pickupArrival s o < o.restaurant.prep_time) := by
  have hd : ¬ deliveryOk s o := fun hdo => h hdo.1
  by_cases hp : pickupOk s wr o
  · have hres : findBest s [o] wr =
        some (o.restaurant.location, o.id, pickupArrival s o) := by
      rw [findBest_singleton, considerOrder_eq]
      simp [cand, hp, isBetter]
    constructor
    · intro _ hwr
      rcases hp.2 with hw | hlt
      · exact absurd hwr hw
      · exact hlt
    · intro _
      simp [find_nearest_valid_location, hres]
  · have hres : findBest s [o] wr = none := by
      rw [findBest_singleton, considerOrder_eq]
      simp [cand, hp, hd]
    constructor
    · intro heq
      simp [find_nearest_valid_location, hres] at heq
    · intro himp
      exfalso
      apply hp
      refine ⟨h, ?_⟩
      by_cases hwr : wr = true
      · exact Or.inr (himp hwr)
      · exact Or.inl hwr

/-- C1 witness: concrete not-picked-up order, concrete flag. -/
theorem C1_witness :
    (w1order.id ∉ (DeliveryState.init ⟨"DW1", 0, 0⟩ 0).picked_up_orders) ∧
    (find_nearest_valid_location (DeliveryState.init ⟨"DW1", 0, 0⟩ 0) [w1order] false =
        (some w1order.restaurant.location, some w1order.id,
          ((pickupArrival (DeliveryState.init ⟨"DW1", 0, 0⟩ 0) w1order : ℝ) : WithTop ℝ)) ↔
      (false = true →
        pickupArrival (DeliveryState.init ⟨"DW1", 0, 0⟩ 0) w1order <
          w1order.restaurant.prep_time)) :=
  ⟨by simp [DeliveryState.init],
    C1_pickup_eligibility (DeliveryState.init ⟨"DW1", 0, 0⟩ 0) w1order false
      (by simp [DeliveryState.init])⟩

/-- C1 counterexample: with `waiting_required = false`, an order whose
arrival time (0) is NOT strictly before its prep time (0) is still selected
as the pickup candidate, contradicting the claimed eligibility condition
`(waitingRequired = false ∧ arrival < prep) ∨ waitingRequired = true`. -/
theorem C1_counterexample :
    o1.id ∉ c1state.picked_up_orders ∧
    find_nearest_valid_location c1state [o1] false =
      (some o1.restaurant.location, some o1.id, ((0:ℝ) : WithTop ℝ)) ∧
    ¬ ((false = false ∧
        c1state.time + travel_time c1state.location o1.restaurant.location <
          o1.restaurant.prep_time) ∨ false = true) := by
  have harr : c1state.time + travel_time c1state.location o1.restaurant.location = 0 := by
    norm_num [c1state, o1, DeliveryState.init, travel_time00]
  refine ⟨?_, ?_, ?_⟩
  · simp [o1, c1state, DeliveryState.init]
  · unfold find_nearest_valid_location
    rw [hfb10]
    rfl
  · intro hcl
    rcases hcl with ⟨_, hlt⟩ | hff
    · rw [harr] at hlt
      norm_num [o1] at hlt
    · simp at hff

/-- C2 (amended): for every order list with pairwise-distinct ids in which
additionally no order's customer location equals its restaurant's location,
`optimize_route` terminates, its loop needing at most `2 * N` iterations
(the embedded loop is run with exactly that much fuel and returns a
result).  Without the added proviso the loop can run forever — see the
counterexample. -/
theorem C2_termination (opt : RouteOptimizer) (orders : List Order)
    (hnd : (orders.map Order.id).Nodup)
    (hsep : ∀ o ∈ orders, o.customer ≠ o.restaurant.location) :
    ∃ r, optimize_route opt orders = some r := by
  obtain ⟨s2, route2, tl2, hrun, _, _⟩ := optimize_route_aux_total orders hnd hsep
    (2 * orders.length) (DeliveryState.init opt.driver_location 0) [] []
    (Inv_init_state orders opt.driver_location) (by simp [DeliveryState.init])
  exact ⟨_, hrun⟩

/-- C2 witness: a single well-separated order. -/
theorem C2_witness :
    (([w2order].map Order.id).Nodup ∧
      ∀ o ∈ [w2order], o.customer ≠ o.restaurant.location) ∧
    ∃ r, optimize_route ⟨⟨"DW2", 0, 0⟩⟩ [w2order] = some r := by
  have h1 : ([w2order].map Order.id).Nodup := by simp
  have h2 : ∀ o ∈ [w2order], o.customer ≠ o.restaurant.location := by
    intro o ho
    simp only [List.mem_singleton] at ho
    subst ho
    intro hcon
    exact absurd (congrArg Location.name hcon) (by decide)
  exact ⟨⟨h1, h2⟩, C2_termination ⟨⟨"DW2", 0, 0⟩⟩ [w2order] h1 h2⟩

/-- C2 counterexample: one order with distinct ids (trivially) whose
customer equals its restaurant location; the loop re-picks the order
forever, so even `2 * N` iterations do not suffice and the run never
returns. -/
theorem C2_counterexample :
    ([b2order].map Order.id).Nodup ∧
    optimize_route ⟨b2driver⟩ [b2order] = none :=
  ⟨by simp, evalB2⟩

/-- C3 (amended): for every non-empty order list with pairwise-distinct ids
in which no order's customer location equals its restaurant's location, the
returned route has length exactly `2 * N` and the timeline holds exactly
one pickup and one delivery event per input order id. -/
theorem C3_route_and_events (opt : RouteOptimizer) (orders : List Order)
    (_h0 : orders ≠ [])
    (hnd : (orders.map Order.id).Nodup)
    (hsep : ∀ o ∈ orders, o.customer ≠ o.restaurant.location) :
    ∃ route time tl, optimize_route opt orders = some (route, time, tl) ∧
      route.length = 2 * orders.length ∧
      ∀ i ∈ orders.map Order.id, pickupCount tl i = 1 ∧ deliveryCount tl i = 1 := by
  obtain ⟨s2, route2, tl2, hrun, hinv2, hdone⟩ := optimize_route_aux_total orders hnd hsep
    (2 * orders.length) (DeliveryState.init opt.driver_location 0) [] []
    (Inv_init_state orders opt.driver_location) (by simp [DeliveryState.init])
  obtain ⟨hdel, hpick⟩ := final_sets orders hnd s2 route2 tl2 hinv2 hdone
  refine ⟨route2, s2.time, tl2, hrun, ?_, ?_⟩
  · rw [hinv2.route_len, hpick, hdel, orderIds_card orders hnd]
    ring
  · intro i hi
    have himem : i ∈ orderIds orders := by
      simp only [orderIds, List.mem_toFinset]
      exact hi
    constructor
    · have hc := hinv2.pickup_cnt i
      rwa [hpick, if_pos himem] at hc
    · have hc := hinv2.del_cnt i
      rwa [hdel, if_pos himem] at hc

/-- C3 witness: a single well-separated order. -/
theorem C3_witness :
    ([w3order] ≠ [] ∧ ([w3order].map Order.id).Nodup ∧
      ∀ o ∈ [w3order], o.customer ≠ o.restaurant.location) ∧
    ∃ route time tl, optimize_route ⟨⟨"DW3", 0, 0⟩⟩ [w3order] = some (route, time, tl) ∧
      route.length = 2 * [w3order].length ∧
      ∀ i ∈ [w3order].map Order.id, pickupCount tl i = 1 ∧ deliveryCount tl i = 1 := by
  have h0 : [w3order] ≠ [] := by simp
  have h1 : ([w3order].map Order.id).Nodup := by simp
  have h2 : ∀ o ∈ [w3order], o.customer ≠ o.restaurant.location := by
    intro o ho
    simp only [List.mem_singleton] at ho
    subst ho
    intro hcon
    exact absurd (congrArg Location.name hcon) (by decide)
  exact ⟨⟨h0, h1, h2⟩, C3_route_and_events ⟨⟨"DW3", 0, 0⟩⟩ [w3order] h0 h1 h2⟩

/-- C3 counterexample: a non-empty distinct-id order list on which the run
returns no route at all (the loop never exits), so in particular no route
of length `2 * N` is returned. -/
theorem C3_counterexample :
    [b3order] ≠ [] ∧ ([b3order].map Order.id).Nodup ∧
    optimize_route ⟨b3driver⟩ [b3order] = none :=
  ⟨by simp, by simp, evalB3⟩

/-- C4 (amended): for every order list with pairwise-distinct ids, in any
timeline `optimize_route` returns, each order's pickup-event time is less
than OR EQUAL TO its delivery-event time.  Strictness fails when the
restaurant-to-customer travel time is zero — see the counterexample. -/
theorem C4_pickup_le_delivery (opt : RouteOptimizer) (orders : List Order)
    (hnd : (orders.map Order.id).Nodup)
    (route : List Location) (time : ℝ) (tl : List Event)
    (hrun : optimize_route opt orders = some (route, time, tl)) :
    ∀ a b i t1 t2, Event.pickup a i t1 ∈ tl → Event.delivery b i t2 ∈ tl →
      t1 ≤ t2 := by
  unfold optimize_route at hrun
  exact optimize_route_aux_winv orders hnd (2 * orders.length)
    (DeliveryState.init opt.driver_location 0) [] [] route time tl
    (WInv_init_state opt.driver_location) hrun

/-- C4 witness: concrete run, with the pickup/delivery pair of order
`"o4"` compared through the theorem. -/
theorem C4_witness :
    ([o4].map Order.id).Nodup ∧
    optimize_route ⟨c4driver⟩ [o4] =
      some ([(⟨"R4", 0, 0⟩ : Location), ⟨"C4", 0, 0⟩], (0:ℝ),
        [Event.pickup "R4" "o4" 0, Event.delivery "C4" "o4" 0]) ∧
    (0:ℝ) ≤ 0 :=
  ⟨by simp, eval4,
    C4_pickup_le_delivery ⟨c4driver⟩ [o4] (by simp) _ _ _ eval4 "R4" "C4" "o4" 0 0
      (by simp) (by simp)⟩

/-- C4 counterexample: restaurant and customer share coordinates (distinct
names), so the delivery arrives at the very minute of the pickup: both
events carry time 0 and the claimed strict inequality `0 < 0` fails. -/
theorem C4_counterexample :
    optimize_route ⟨c4driver⟩ [o4] =
      some ([(⟨"R4", 0, 0⟩ : Location), ⟨"C4", 0, 0⟩], (0:ℝ),
        [Event.pickup "R4" "o4" 0, Event.delivery "C4" "o4" 0]) ∧
    ¬ ((0:ℝ) < (0:ℝ)) :=
  ⟨eval4, by norm_num⟩

/-- C5 (amended): identical coordinates imply distance zero — the name
fields are irrelevant, as the statement carries no hypothesis about them.
The converse direction of the claim is false: coordinates differing by a
full turn of longitude also give distance zero (see the counterexample),
so zero distance does not imply identical coordinates. -/
theorem C5_zero_of_eq_coords (a b : Location)
    (h : a.lat = b.lat ∧ a.lon = b.lon) : haversine_distance a b = 0 :=
  haversine_distance_eq_zero a b h.1 h.2

/-- C5 witness: same coordinates, different names. -/
theorem C5_witness :
    ((Location.mk "X" 1 2).lat = (Location.mk "Y" 1 2).lat ∧
     (Location.mk "X" 1 2).lon = (Location.mk "Y" 1 2).lon) ∧
    haversine_distance ⟨"X", 1, 2⟩ ⟨"Y", 1, 2⟩ = 0 :=
  ⟨⟨rfl, rfl⟩, C5_zero_of_eq_coords ⟨"X", 1, 2⟩ ⟨"Y", 1, 2⟩ ⟨rfl, rfl⟩⟩

/-- C5 counterexample: longitudes 0 and 360 denote different coordinates,
yet the haversine argument vanishes (`sin π = 0`) and the distance is
exactly zero, refuting the only-if direction of the claim. -/
theorem C5_counterexample :
    haversine_distance ⟨"A", 0, 0⟩ ⟨"B", 0, 360⟩ = 0 ∧
    ¬ ((Location.mk "A" 0 0).lat = (Location.mk "B" 0 360).lat ∧
       (Location.mk "A" 0 0).lon = (Location.mk "B" 0 360).lon) := by
  constructor
  · simp only [haversine_distance, radians]
    rw [show ((0:ℝ) * (Real.pi / 180) - 0 * (Real.pi / 180)) / 2 = 0 by ring]
    rw [show ((360:ℝ) * (Real.pi / 180) - 0 * (Real.pi / 180)) / 2 = Real.pi by ring]
    simp
  · intro hcl
    have h2 := hcl.2
    norm_num at h2

/-- C6: in every iteration whose selected candidate location equals the
matching order's restaurant location, the loop computes
`prepEndTime = max(arrivalTime, restaurant.prep_time)` (prep time as an
absolute minute on the global clock); it emits a waiting event with
`start_time = arrivalTime` and `end_time = prepEndTime` exactly when
`prepEndTime > arrivalTime`, in which case `state.time` becomes
`prepEndTime`; and it then marks the order picked up and emits the pickup
event at the (possibly advanced) `state.time = prepEndTime`. -/
theorem C6_pickup_prep_semantics (orders : List Order) (s : DeliveryState)
    (route : List Location) (tl : List Event) (lc : Location) (oid : String)
    (t : ℝ) (o : Order)
    (hsel : select_candidate s orders = some (lc, oid, t))
    (hfind : orders.find? (fun o2 => o2.id == oid) = some o)
    (hloc : lc = o.restaurant.location) :
    loop_body orders s route tl = some
      ({ location := lc, time := max t o.restaurant.prep_time,
         picked_up_orders := insert oid s.picked_up_orders,
         delivered_orders := s.delivered_orders,
         restaurant_arrival_times := s.restaurant_arrival_times },
       route ++ [lc],
       (tl ++ (if max t o.restaurant.prep_time > t then
           [Event.waiting lc.name oid t (max t o.restaurant.prep_time)] else [])) ++
         [Event.pickup lc.name oid (max t o.restaurant.prep_time)]) :=
  loop_body_pickup orders s route tl lc oid t o hsel hfind hloc

/-- C6 witness: first iteration on the concrete input `o4`. -/
theorem C6_witness :
    select_candidate s40 [o4] = some (⟨"R4", 0, 0⟩, "o4", (0:ℝ)) ∧
    loop_body [o4] s40 [] [] = some
      ({ location := ⟨"R4", 0, 0⟩, time := max (0:ℝ) o4.restaurant.prep_time,
         picked_up_orders := insert "o4" s40.picked_up_orders,
         delivered_orders := s40.delivered_orders,
         restaurant_arrival_times := s40.restaurant_arrival_times },
       [] ++ [(⟨"R4", 0, 0⟩ : Location)],
       (([] : List Event) ++ (if max (0:ℝ) o4.restaurant.prep_time > 0 then
           [Event.waiting "R4" "o4" 0 (max (0:ℝ) o4.restaurant.prep_time)] else [])) ++
         [Event.pickup "R4" "o4" (max (0:ℝ) o4.restaurant.prep_time)]) :=
  ⟨hsel40, C6_pickup_prep_semantics [o4] s40 [] [] ⟨"R4", 0, 0⟩ "o4" 0 o4 hsel40
    hfind4 rfl⟩

/-- C7: the candidate search returns `(None, None, inf)` exactly when no
order offers an eligible candidate, and otherwise returns the eligible
candidate with the smallest arrival time
(`state.time + travelTime(state.location, candidate)`), the
first-encountered order winning ties: its arrival time is `≤` every
eligible candidate's, and `<` that of every eligible candidate of an
earlier order. -/
theorem C7_nearest_selection (s : DeliveryState) (orders : List Order) (wr : Bool) :
    (find_nearest_valid_location s orders wr = (none, none, (⊤ : WithTop ℝ)) ↔
      ∀ o ∈ orders, cand s wr o = none) ∧
    (∀ lc oid t, find_nearest_valid_location s orders wr =
        (some lc, some oid, ((t : ℝ) : WithTop ℝ)) →
      ∃ l1 o l2, orders = l1 ++ o :: l2 ∧ o.id = oid ∧
        cand s wr o = some (lc, oid, t) ∧
        (∀ o2 ∈ l1, ∀ c2, cand s wr o2 = some c2 → t < c2.2.2) ∧
        (∀ o2 ∈ orders, ∀ c2, cand s wr o2 = some c2 → t ≤ c2.2.2)) := by
  constructor
  · rw [← findBest_eq_none_iff s orders wr]
    unfold find_nearest_valid_location
    cases hfb : findBest s orders wr with
    | none => simp
    | some c =>
      obtain ⟨c1, c2p, c3⟩ := c
      simp
  · intro lc oid t heq
    unfold find_nearest_valid_location at heq
    cases hfb : findBest s orders wr with
    | none =>
      rw [hfb] at heq
      simp at heq
    | some c =>
      obtain ⟨c1, c2p, c3⟩ := c
      rw [hfb] at heq
      simp only [Prod.mk.injEq, Option.some.injEq] at heq
      obtain ⟨h1, h2, h3⟩ := heq
      have h3r : c3 = t := by exact_mod_cast h3
      subst h1
      subst h2
      subst h3r
      obtain ⟨l1, o, l2, hsplit, hcand, hearlier, hglobal⟩ :=
        findBest_some_spec s orders wr c1 c2p c3 hfb
      exact ⟨l1, o, l2, hsplit, (cand_id s wr o c1 c2p c3 hcand).symm, hcand,
        hearlier, hglobal⟩

/-- C7 witness: a fully-delivered order offers no candidate, and the search
indeed returns `(None, None, inf)`. -/
theorem C7_witness :
    find_nearest_valid_location s7 [o7] true = (none, none, (⊤ : WithTop ℝ)) :=
  (C7_nearest_selection s7 [o7] true).1.mpr (by
    intro o ho
    simp only [List.mem_singleton] at ho
    subst ho
    simp [cand, pickupOk, deliveryOk, s7, o7])

/-- C8: the initial state trivially satisfies delivered ⊆ picked-up, and
every loop iteration preserves the invariant while never decreasing
`state.time`. -/
theorem C8_invariants (opt : RouteOptimizer) (orders : List Order)
    (s : DeliveryState) (route : List Location) (tl : List Event)
    (s2 : DeliveryState) (route2 : List Location) (tl2 : List Event)
    (hnd : (orders.map Order.id).Nodup)
    (hsub : s.delivered_orders ⊆ s.picked_up_orders)
    (hstep : loop_body orders s route tl = some (s2, route2, tl2)) :
    ((DeliveryState.init opt.driver_location 0).delivered_orders ⊆
      (DeliveryState.init opt.driver_location 0).picked_up_orders) ∧
    s2.delivered_orders ⊆ s2.picked_up_orders ∧ s.time ≤ s2.time := by
  refine ⟨by simp [DeliveryState.init], ?_⟩
  cases hsel : select_candidate s orders with
  | none =>
    unfold loop_body at hstep
    rw [hsel] at hstep
    simp only [Option.some.injEq, Prod.mk.injEq] at hstep
    obtain ⟨rfl, rfl, rfl⟩ := hstep
    exact ⟨hsub, le_refl _⟩
  | some c =>
    obtain ⟨lc, oid, t⟩ := c
    have hfbor := select_candidate_some s orders _ hsel
    have hmemw : ∃ wr, findBest s orders wr = some (lc, oid, t) := by
      rcases hfbor with hh | hh
      · exact ⟨false, hh⟩
      · exact ⟨true, hh⟩
    obtain ⟨wr, hfbw⟩ := hmemw
    obtain ⟨o2, ho2, hid, hcand⟩ := findBest_mem s orders wr lc oid t hfbw
    subst hid
    have hfind : orders.find? (fun x => x.id == o2.id) = some o2 :=
      find?_of_nodup orders o2 ho2 hnd
    have hts : s.time ≤ t := by
      rcases cand_cases s wr o2 lc o2.id t hcand with ⟨_, _, _, ht⟩ | ⟨_, _, _, _, ht⟩
      · exact ht ▸ pickupArrival_ge s o2
      · exact ht ▸ deliveryArrival_ge s o2
    by_cases hloc : lc = o2.restaurant.location
    · subst hloc
      rw [loop_body_pickup orders s route tl o2.restaurant.location o2.id t o2
        hsel hfind rfl] at hstep
      simp only [Option.some.injEq, Prod.mk.injEq] at hstep
      obtain ⟨rfl, rfl, rfl⟩ := hstep
      exact ⟨hsub.trans (Finset.subset_insert _ _), le_trans hts (le_max_left _ _)⟩
    · have hdo : deliveryOk s o2 := by
        rcases cand_cases s wr o2 lc o2.id t hcand with ⟨_, hlc, _, _⟩ | ⟨_, hdo2, _, _, _⟩
        · exact absurd hlc hloc
        · exact hdo2
      rw [loop_body_delivery orders s route tl lc o2.id t o2 hsel hfind hloc] at hstep
      simp only [Option.some.injEq, Prod.mk.injEq] at hstep
      obtain ⟨rfl, rfl, rfl⟩ := hstep
      exact ⟨Finset.insert_subset hdo.1 hsub, hts⟩

/-- C8 witness: the first concrete iteration on input `o4`. -/
theorem C8_witness :
    ([o4].map Order.id).Nodup ∧
    s40.delivered_orders ⊆ s40.picked_up_orders ∧
    (s41.delivered_orders ⊆ s41.picked_up_orders ∧ s40.time ≤ s41.time) :=
  ⟨by simp, by simp [s40, DeliveryState.init],
    (C8_invariants ⟨c4driver⟩ [o4] s40 [] [] s41 [⟨"R4", 0, 0⟩]
      [Event.pickup "R4" "o4" 0] (by simp) (by simp [s40, DeliveryState.init])
      eval4_step1).2⟩

/-- C9: the empty order list returns immediately with an empty route, total
time 0 and an empty timeline — the loop guard `0 < 0` fails before any
candidate search is invoked. -/
theorem C9_empty_orders (opt : RouteOptimizer) :
    optimize_route opt [] = some ([], 0, []) := by
  simp [optimize_route, optimize_route_aux, DeliveryState.init]

/-- C10: the candidate search is a pure reader of the state.  In the
state-passing translation the state returned after the scan is exactly the
input state — location, time, picked-up set and delivered set included —
and the value computed agrees with `find_nearest_valid_location`. -/
theorem C10_no_mutation (s : DeliveryState) (orders : List Order) (wr : Bool) :
    (find_nearest_valid_location_st s orders wr).2 = s ∧
    (find_nearest_valid_location_st s orders wr).1 =
      find_nearest_valid_location s orders wr := by
  unfold find_nearest_valid_location_st find_nearest_valid_location findBest
  rw [foldl_st wr orders none s]
  exact ⟨rfl, rfl⟩

end RouteOptimizer
